import Mathlib

/-!
Verification of the value-marshalling core of `sos_r` (`src/sos_r/kernel.py`)
against its natural-language specification.

The development shallowly embeds the Python→R encoder `_R_repr` (with its
helpers `homogeneous_type` and `make_name`, its global warning dictionary
`_R_repr_warnings` and its `processed` cycle set), the DataFrame side-channel
branch, the rank-≥2 `numpy.ndarray` branch together with the column-major
semantics of the R `array(data, dim)` call it emits, and the vector branches of
the R→Python encoder `..py.repr` from `R_init_statements`.

Python machine-level details are modelled as follows: floats are a tagged type
(NaN / signed infinity / finite-with-repr-text), object identity of `dict`
instances is a numeric id resolved through an explicit heap, Python's `repr`
of `int` is decimal text, and `repr` of `str` is single-quoted text with
backslash and quote escaped.  Branches of `_R_repr` not exercised by any
claim (complex, numpy scalar types, `numpy.matrix`, `pandas.Series`) are not
modelled.
-/

namespace SosR

/-- A Python float: NaN, an infinity with a sign, or a finite value carried
together with its `repr` text (the encoder only ever prints a finite float
via `repr`, so the text is all that matters). -/
inductive PFloat where
  | nan : PFloat
  | inf (pos : Bool) : PFloat
  | finite (r : String) : PFloat
deriving DecidableEq, Repr

/-- The Python values that `_R_repr` dispatches on, restricted to the kinds
the claims exercise.  A `dict` is a reference (Python object id) into an
explicit heap so that cyclic and shared mappings are representable.
`unsupported` stands for a value of any class with no encoding rule; it
carries its class name (for `type`-based homogeneity tests) and the text
`short_repr` would produce for it. -/
inductive PyVal where
  | pybool (b : Bool) : PyVal
  | pyint (n : Int) : PyVal
  | pystr (s : String) : PyVal
  | pyfloat (f : PFloat) : PyVal
  | pynone : PyVal
  | pyseq (xs : List PyVal) : PyVal
  | pyset (xs : List PyVal) : PyVal
  | pydict (ref : Nat) : PyVal
  | unsupported (cls : String) (shortRepr : String) : PyVal

/-- The heap resolving `dict` references: each Python `dict` object id maps to
its ordered key/value entries (keys already passed through `str`). -/
abbrev PyHeap := List (Nat × List (String × PyVal))

/-- The result of Python's `type(x)` for the modelled values.  `type(True)`
is `bool`, not `int`. -/
inductive PyType where
  | tbool | tint | tfloat | tstr | tnone | tseq | tset | tdict
  | tother (cls : String)
deriving DecidableEq, Repr

def pytype : PyVal → PyType
  | .pybool _ => .tbool
  | .pyint _ => .tint
  | .pystr _ => .tstr
  | .pyfloat _ => .tfloat
  | .pynone => .tnone
  | .pyseq _ => .tseq
  | .pyset _ => .tset
  | .pydict _ => .tdict
  | .unsupported cls _ => .tother cls

/-- Python `isinstance(x, (int, float))`.  `bool` is a subclass of `int`,
so booleans satisfy it. -/
def isinstanceIntFloat (v : PyVal) : Bool :=
  match v with
  | .pyint _ => true
  | .pyfloat _ => true
  | .pybool _ => true
  | _ => false

/-- Python `isinstance(x, t)` for a concrete class `t`, over the modelled
classes; the only modelled subclass relation is `bool <: int`. -/
def isinstanceOf (v : PyVal) (t : PyType) : Bool :=
  pytype v == t || (t == .tint && pytype v == .tbool)

/-- `homogeneous_type(seq)` from kernel.py lines 18-24.  The first element's
type is taken with `type(next(iseq))` — on an empty sequence this raises
`StopIteration`, modelled as `none`.  When the first type is exactly `int` or
`float`, the remaining elements need only be instances of `(int, float)`;
otherwise they must be instances of the first element's type. -/
def homogeneous_type : List PyVal → Option Bool
  | [] => none
  | x :: rest =>
    if pytype x == .tint || pytype x == .tfloat then
      some (rest.all isinstanceIntFloat)
    else
      some (rest.all (fun y => isinstanceOf y (pytype x)))

/-- ASCII alphabetic character (the claims only exercise ASCII input). -/
def isAlphaCh (c : Char) : Bool :=
  ('a' ≤ c && c ≤ 'z') || ('A' ≤ c && c ≤ 'Z')

/-- A regex word character: what `\W` does NOT match. -/
def isWordCh (c : Char) : Bool :=
  isAlphaCh c || ('0' ≤ c && c ≤ '9') || c == '_'

/-- Python `str.isalpha()`: non-empty and every character alphabetic. -/
def pyIsAlpha (s : String) : Bool :=
  !s.data.isEmpty && s.data.all isAlphaCh

/-- `make_name(name)` from kernel.py lines 28-34: purely alphabetic names
pass through; otherwise an empty name or one not starting with a letter gets
`X` prepended, and then `re.sub(r'\W', '_', name)` replaces every non-word
character with an underscore. -/
def make_name (name : String) : String :=
  if pyIsAlpha name then name
  else
    let name :=
      if name.data.isEmpty || !(isAlphaCh (name.data.headD ' ')) then
        "X" ++ name
      else name
    ⟨name.data.map (fun c => if isWordCh c then c else '_')⟩

/-- Python `repr` of a `str`: single-quoted, with backslash and single quote
escaped (the quote-style switching of CPython for strings containing quotes
is not exercised by any claim). -/
def pyStrRepr (s : String) : String :=
  "'" ++ s.data.foldr (fun c acc =>
    (if c == '\\' then "\\\\" else if c == '\'' then "\\'" else String.singleton c) ++ acc) "" ++ "'"

/-- The warning dictionary `_R_repr_warnings`: Python dict keys in insertion
order (each key mapped to `1`, so only the ordered key list matters). -/
abbrev Warnings := List String

/-- `_R_repr_warnings[w] = 1`: inserting an existing key changes nothing,
a new key is appended. -/
def addWarning (st : Warnings) (w : String) : Warnings :=
  if st.contains w then st else st ++ [w]

/-- The cycle-guard argument `processed` of `_R_repr`: `none` is Python's
`None` default, `some s` a set of dict ids (insertion order kept, only
membership matters). -/
abbrev Processed := Option (List Nat)

/-- One encoding step, as a function value: what `_R_repr` looks like to the
loops below. -/
abbrev EncFun := PyVal → Processed → Warnings → Option (String × Processed × Warnings)

/-- Encoding of the elements of a sequence or set: each element is encoded by
a plain `_R_repr(x)` call (`processed` defaults to `None`), while the global
warning dictionary threads through. -/
def encElems (enc : EncFun) : List PyVal → Warnings → Option (List String × Warnings)
  | [], st => some ([], st)
  | x :: rest, st =>
    match enc x none st with
    | none => none
    | some (t, _, st') =>
      match encElems enc rest st' with
      | none => none
      | some (ts, st'') => some (t :: ts, st'')

/-- Encoding of a dict's entries: each key goes through `make_name(str(x))`
(keys are modelled post-`str`), each value is encoded with the shared
`processed` set, whose mutations remain visible to the following entries and
to the caller. -/
def encEntries (enc : EncFun) : List (String × PyVal) → Processed → Warnings →
    Option (List String × Processed × Warnings)
  | [], pr, st => some ([], pr, st)
  | (k, v) :: rest, pr, st =>
    match enc v pr st with
    | none => none
    | some (t, pr', st') =>
      match encEntries enc rest pr' st' with
      | none => none
      | some (ts, pr'', st'') => some ((make_name k ++ "=" ++ t) :: ts, pr'', st'')

/-- `_R_repr(obj, processed)` from kernel.py lines 49-161, on the modelled
values, with `fuel` bounding the nesting depth of the recursion
(`none` = the Python call would not have returned at this depth).  The result
carries the produced R source text, the caller-visible `processed` set (the
Python set object is mutated in place, so additions made while encoding a
dict's values are visible to the caller that passed the set; elements of
sequences and sets are encoded with a fresh `processed=None`), and the global
warning dictionary. -/
def rRepr : Nat → PyHeap → PyVal → Processed → Warnings →
    Option (String × Processed × Warnings)
  | 0, _, _, _, _ => none
  | Nat.succ fuel, h, v, processed, st =>
    match v with
    | .pybool b => some (if b then "TRUE" else "FALSE", processed, st)
    | .pyint n => some (toString n, processed, st)
    | .pystr s => some (pyStrRepr s, processed, st)
    | .pyfloat f =>
      match f with
      | .nan => some ("NaN", processed, st)
      | .inf _ => some ("Inf", processed, st)
      | .finite r => some (r, processed, st)
    | .pynone => some ("NULL", processed, st)
    | .pyseq xs =>
      if xs.isEmpty then some ("c()", processed, st)
      else
        match homogeneous_type xs with
        | none => none
        | some homog =>
          match encElems (rRepr fuel h) xs st with
          | none => none
          | some (ts, st') =>
            if homog then
              some ("c(" ++ String.intercalate "," ts ++ ")", processed, st')
            else
              some ("list(" ++ String.intercalate "," ts ++ ")", processed, st')
    | .pyset xs =>
      match encElems (rRepr fuel h) xs st with
      | none => none
      | some (ts, st') =>
        some ("list(" ++ String.intercalate "," ts ++ ")", processed, st')
    | .pydict ref =>
      -- the re-entrance check precedes any access to the dict's items
      match processed with
      | some s =>
        if s.isEmpty then
          -- an empty set is falsy: Python rebinds `processed` to a fresh
          -- local set; the caller's (empty) set is left untouched
          match h.lookup ref with
          | none => none
          | some entries =>
            match encEntries (rRepr fuel h) entries (some [ref]) st with
            | none => none
            | some (ts, _, st') =>
              some ("list(" ++ String.intercalate "," ts ++ ")", some s, st')
        else if s.contains ref then
          some ("NULL", some s, st)
        else
          match h.lookup ref with
          | none => none
          | some entries =>
            match encEntries (rRepr fuel h) entries (some (s ++ [ref])) st with
            | none => none
            | some (ts, pr', st') =>
              some ("list(" ++ String.intercalate "," ts ++ ")", pr', st')
      | none =>
        match h.lookup ref with
        | none => none
        | some entries =>
          match encEntries (rRepr fuel h) entries (some [ref]) st with
          | none => none
          | some (ts, _, st') =>
            some ("list(" ++ String.intercalate "," ts ++ ")", none, st')
    | .unsupported _ sr =>
      some ("NULL", processed,
        addWarning st ("Unsupported datatype " ++ sr ++ ". Variable is set to NULL"))

/-! ### The DataFrame side-channel branch (kernel.py lines 115-150) -/

mutual

/-- Python `==` on the modelled values, as used by `set(df_index)` when the
encoder checks an index for duplicate labels.  (Python's cross-type numeric
equalities such as `1 == 1.0` are not modelled; no claim exercises them.) -/
def pyEq : PyVal → PyVal → Bool
  | .pybool a, .pybool b => a == b
  | .pyint a, .pyint b => a == b
  | .pystr a, .pystr b => a == b
  | .pyfloat a, .pyfloat b => a == b
  | .pynone, .pynone => true
  | .pyseq a, .pyseq b => pyEqList a b
  | .pyset a, .pyset b => pyEqList a b
  | .pydict a, .pydict b => a == b
  | .unsupported c1 s1, .unsupported c2 s2 => c1 == c2 && s1 == s2
  | _, _ => false

def pyEqList : List PyVal → List PyVal → Bool
  | [], [] => true
  | x :: xs, y :: ys => pyEq x y && pyEqList xs ys
  | _, _ => false

end

/-- `len(df_index) != len(set(df_index))`: whether the index labels contain a
duplicate under Python equality. -/
def hasDup : List PyVal → Bool
  | [] => false
  | x :: rest => rest.any (pyEq x) || hasDup rest

/-- Python `str(x)` for the modelled values, as used when the side-channel
write fails and every value of a non-homogeneous column is coerced with
`[str(x) for x in data[c]]`. -/
def pyStr : PyVal → String
  | .pybool b => if b then "True" else "False"
  | .pyint n => toString n
  | .pystr s => s
  | .pyfloat .nan => "nan"
  | .pyfloat (.inf pos) => if pos then "inf" else "-inf"
  | .pyfloat (.finite r) => r
  | .pynone => "None"
  | .pyseq _ => "<seq>"
  | .pyset _ => "<set>"
  | .pydict _ => "<dict>"
  | .unsupported _ sr => sr

/-- The columns of a `pandas.DataFrame`: ordered named columns of values. -/
abbrev Cols := List (String × List PyVal)

/-- A `pandas.DataFrame` row index: either the default integer `RangeIndex`
over `n` rows or an explicit label sequence.  A `RangeIndex` IS an instance of
`pandas.Index`, and `list(data.index)` on it yields the integers `0..n-1`. -/
inductive DFIndex where
  | rangeIdx (n : Nat) : DFIndex
  | labels (ls : List PyVal) : DFIndex

/-- A `pandas.DataFrame`, reduced to what the encoder inspects. -/
structure DataFrame where
  cols : Cols
  index : DFIndex

/-- `list(data.index)`. -/
def dfIndexList : DFIndex → List PyVal
  | .rangeIdx n => (List.range n).map (fun i => .pyint (Int.ofNat i))
  | .labels ls => ls

/-- The per-column coercion loop of the `except` handler (kernel.py lines
143-145): every column failing `homogeneous_type` is replaced by the `str`
of each of its values; `homogeneous_type` on an empty column raises
`StopIteration` (modelled as `none`), which would propagate. -/
def coerceCols : Cols → Option Cols
  | [] => some []
  | (name, col) :: rest =>
    match homogeneous_type col with
    | none => none
    | some homog =>
      let col' := if homog then col else col.map (fun x => .pystr (pyStr x))
      match coerceCols rest with
      | none => none
      | some rest' => some ((name, col') :: rest')

/-- The warning recorded when the index labels are not unique. -/
def dupIndexWarning : String :=
  "Index is ignored because R dataframe does not accept non-unique row names."

/-- The `'..read.feather({!r}, index={})'` return text (kernel.py line 149):
the path goes through `repr`, `df_index` (a list of labels or `None`) through
`_R_repr`, which threads the global warning dictionary. -/
def renderRead (fuel : Nat) (h : PyHeap) (path : String)
    (dfIndex : Option (List PyVal)) (st : Warnings) :
    Option (String × Warnings) :=
  let idxVal : PyVal := match dfIndex with
    | none => .pynone
    | some ls => .pyseq ls
  match rRepr fuel h idxVal none st with
  | none => none
  | some (t, _, st') =>
    some ("..read.feather(" ++ pyStrRepr path ++ ", index=" ++ t ++ ")", st')

/-- The `pandas.DataFrame` branch of `_R_repr` (kernel.py lines 115-150).
`writeOk` abstracts `feather.write_dataframe` (`true` = the write succeeds);
`path` is the fresh temporary file name.  Returns the encoder outcome
(`none` = a raised exception propagates to the caller) paired with the list
of column sets handed to `feather.write_dataframe`, in call order, so that
the number of write attempts and the data each one received are observable.
Every index (a `RangeIndex` included, since it is an instance of
`pandas.Index`) is turned into `list(data.index)`; a duplicated label list is
dropped to `None` with a warning; a write failure triggers one retry after
coercing each non-homogeneous column to text, and a failure of the retry
propagates. -/
def encodeFrame (fuel : Nat) (writeOk : Cols → Bool) (path : String)
    (df : DataFrame) (st : Warnings) :
    Option (String × Warnings) × List Cols :=
  let idx := dfIndexList df.index
  let dfIdxSt : Option (List PyVal) × Warnings :=
    if hasDup idx then (none, addWarning st dupIndexWarning)
    else (some idx, st)
  if writeOk df.cols then
    (renderRead fuel [] path dfIdxSt.1 dfIdxSt.2, [df.cols])
  else
    match coerceCols df.cols with
    | none => (none, [df.cols])
    | some cols' =>
      if writeOk cols' then
        (renderRead fuel [] path dfIdxSt.1 dfIdxSt.2, [df.cols, cols'])
      else
        (none, [df.cols, cols'])

/-! ### The rank-≥2 `numpy.ndarray` branch (kernel.py lines 106-114) and the
column-major semantics of the R `array(data, dim=...)` snippet it emits -/

/-- A dense multi-dimensional array: a shape and the element at each
(0-based) multi-index, read in the original axis order. -/
structure NDArray where
  shape : List Nat
  get : List Nat → Int

/-- Product of a dimension list. -/
def prodL : List Nat → Nat
  | [] => 1
  | d :: ds => d * prodL ds

/-- Swap the entries at positions `a` and `b` of a list (used both on shapes
and on multi-indices to model `ndarray.swapaxes`). -/
def swapList (l : List Nat) (a b : Nat) : List Nat :=
  l.mapIdx (fun k x =>
    if k == a then l.getD b x else if k == b then l.getD a x else x)

/-- `ndarray.swapaxes(a, b)`. -/
def NDArray.swapaxes (A : NDArray) (a b : Nat) : NDArray where
  shape := swapList A.shape a b
  get := fun i => A.get (swapList i a b)

/-- Row-major (C order) de-linearisation of a flat position into a
multi-index for the given shape. -/
def cUnflatten : List Nat → Nat → List Nat
  | [], _ => []
  | _ :: ds, k => (k / prodL ds) :: cUnflatten ds (k % prodL ds)

/-- `ndarray.flatten(order='C')`: the elements listed with the last axis
varying fastest. -/
def flattenC (A : NDArray) : List Int :=
  (List.range (prodL A.shape)).map (fun k => A.get (cUnflatten A.shape k))

/-- Column-major linearisation: the position at which R's `array(data, dim)`
stores a given (0-based) multi-index — the FIRST axis varies fastest. -/
def colPos : List Nat → List Nat → Nat
  | d :: ds, i :: is => i + d * colPos ds is
  | _, _ => 0

/-- The array whose axes the encoder swaps before flattening:
`obj.swapaxes(obj.ndim - 2, obj.ndim - 1)`. -/
def swappedA (A : NDArray) : NDArray :=
  A.swapaxes (A.shape.length - 2) (A.shape.length - 1)

/-- Python `repr` of the shape tuple, e.g. `(2, 2, 2)` (rank ≥ 2, so the
one-element-tuple trailing comma never occurs). -/
def pyTupleRepr (ds : List Nat) : String :=
  "(" ++ String.intercalate ", " (ds.map toString) ++ ")"

/-- The inline literal emitted for a rank-≥2 `numpy.ndarray` (kernel.py lines
109-114): the last two axes are swapped, the result is flattened in C order
into a flat `c(...)` element list, and the dim is the R-side `rev` of the
swapped shape. -/
def ndarrayRepr (A : NDArray) : String :=
  "array(" ++ "c(" ++
    String.intercalate "," ((flattenC (swappedA A)).map toString) ++ ")" ++
    ", dim=(" ++ "rev(c" ++ pyTupleRepr (swappedA A).shape ++ ")))"

/-- The dim vector of the R array the emitted snippet evaluates to:
`rev(c(...))` of the swapped shape. -/
def rArrayDims (A : NDArray) : List Nat :=
  (swappedA A).shape.reverse

/-- The element of the R array the emitted snippet evaluates to, at a 0-based
multi-index: R `array(data, dim)` fills `data` in column-major order. -/
def rArrayGet (A : NDArray) (i : List Nat) : Int :=
  (flattenC (swappedA A)).getD (colPos (rArrayDims A) i) 0

/-! ### The vector branches of the R→Python encoder `..py.repr`
(`R_init_statements`, kernel.py lines 179-331) -/

/-- An unnamed-or-named atomic R vector, the part of R's value universe the
vector branches of `..py.repr` dispatch on.  In R there is no scalar type: a
scalar IS a vector of length 1.  (`NA` entries of logical vectors are not
modelled; no claim exercises them.) -/
inductive RVec where
  | rlogical (xs : List Bool) (names : Option (List String)) : RVec
  | rint (xs : List Int) (names : Option (List String)) : RVec
  | rdouble (xs : List PFloat) (names : Option (List String)) : RVec
  | rchar (xs : List String) (names : Option (List String)) : RVec

/-- `..py.repr.logical.1`. -/
def pyReprLogical1 (b : Bool) : String :=
  if b then "True" else "False"

/-- `..py.repr.integer.1` = `as.character(obj)`. -/
def pyReprInt1 (n : Int) : String := toString n

/-- `..py.repr.double.1`: `is.nan` → the Python NaN sentinel, `is.infinite`
(true for BOTH signs) → `'float("inf")'`, otherwise `as.character(obj)`. -/
def pyReprDouble1 : PFloat → String
  | .nan => "numpy.nan"
  | .inf _ => "float(\"inf\")"
  | .finite r => r

/-- `..py.repr.character.1` = `paste0('r"""', obj, '"""')`. -/
def pyReprChar1 (s : String) : String :=
  "r\"\"\"" ++ s ++ "\"\"\""

/-- R `as.character` of a double, used where `paste` coerces raw double
vectors (named-vector branches). -/
def pfloatAsChar : PFloat → String
  | .nan => "NaN"
  | .inf pos => if pos then "Inf" else "-Inf"
  | .finite r => r

/-- `paste("[", X, "]")` with the default separator `" "`. -/
def pasteBracket (x : String) : String := "[ " ++ x ++ " ]"

/-- `paste0("pandas.Series(", "[", vals, "],", "[", names, "]", ")")`. -/
def pandasSeries (vals names : List String) : String :=
  "pandas.Series(" ++ "[" ++ String.intercalate "," vals ++ "]," ++
    "[" ++ String.intercalate "," names ++ "]" ++ ")"

/-- The atomic-vector branches of `..py.repr` (kernel.py lines 280-327):
for each vector kind, an unnamed vector of length 1 is emitted via the
corresponding `..py.repr.*.1` scalar form, an unnamed longer vector as a
bracketed Python list, and a named vector as a `pandas.Series(...)` call. -/
def pyReprVec : RVec → String
  | .rint xs names =>
    match names with
    | none =>
      if xs.length == 1 then pyReprInt1 (xs.headD 0)
      else pasteBracket (String.intercalate "," (xs.map toString))
    | some ns => pandasSeries (xs.map toString) (ns.map pyReprChar1)
  | .rdouble xs names =>
    match names with
    | none =>
      if xs.length == 1 then pyReprDouble1 (xs.headD .nan)
      else pasteBracket (String.intercalate "," (xs.map pyReprDouble1))
    | some ns => pandasSeries (xs.map pfloatAsChar) (ns.map pyReprChar1)
  | .rchar xs names =>
    match names with
    | none =>
      if xs.length == 1 then pyReprChar1 (xs.headD "")
      else pasteBracket (String.intercalate "," (xs.map pyReprChar1))
    | some ns => pandasSeries (xs.map pyReprChar1) (ns.map pyReprChar1)
  | .rlogical xs names =>
    match names with
    | none =>
      if xs.length == 1 then pyReprLogical1 (xs.headD false)
      else pasteBracket (String.intercalate "," (xs.map pyReprLogical1))
    | some ns => pandasSeries (xs.map pyReprLogical1) (ns.map pyReprChar1)

/-! ### Predicates and auxiliary data used by the claim statements -/

/-- The scalar kinds named by the spec: boolean, integer, float, string. -/
def isScalarPy : PyVal → Bool
  | .pybool _ => true
  | .pyint _ => true
  | .pystr _ => true
  | .pyfloat _ => true
  | _ => false

/-- A value whose Python type is exactly `int` or exactly `float`. -/
def isNumScalar : PyVal → Bool
  | .pyint _ => true
  | .pyfloat _ => true
  | _ => false

/-- The name-mangling algorithm exactly as the specification (§4.3) words it,
defined independently of `make_name` for the refinement comparison: a purely
alphabetic string passes through unchanged; otherwise, if the string is empty
or does not start with an alphabetic character, the escape letter `X` is
prepended; then every character that is not a letter, digit, or underscore is
replaced by an underscore. -/
def mangleSpec (s : String) : String :=
  if s.data ≠ [] ∧ ∀ c ∈ s.data, isAlphaCh c then s
  else
    let s1 : String :=
      if s.data = [] ∨ ¬ isAlphaCh (s.data.headD ' ') then "X" ++ s else s
    ⟨s1.data.map fun c => if isWordCh c then c else '_'⟩

/-- A concrete 2×2×2 array: the element at index `[i, j, k]` is `4i + 2j + k`
(so the flat C-order data is `0..7`). -/
def cubeA : NDArray :=
  ⟨[2, 2, 2], fun ix => ((4 * ix.headD 0 + 2 * ix.getD 1 0 + ix.getD 2 0 : Nat) : Int)⟩

/-- A concrete 2×3 array: the element at index `[i, j]` is `3i + j`. -/
def rectA : NDArray :=
  ⟨[2, 3], fun ix => ((3 * ix.headD 0 + ix.getD 1 0 : Nat) : Int)⟩

/-! ## Claims -/

/-- Claim C1, counterexample: in the Python→R direction, encoding the
one-element homogeneous vector `[5]` yields `c(5)`, which is not the same
source text as `5`, the encoding of the scalar `5` itself.  So
`encode([x]) == encode(x)` fails as stated for the Python-side encoder. -/
theorem C1_counterexample :
    rRepr 2 [] (.pyseq [.pyint 5]) none [] = some ("c(5)", none, []) ∧
    rRepr 1 [] (.pyint 5) none [] = some ("5", none, []) ∧
    ("c(5)" : String) ≠ "5" :=
  ⟨rfl, rfl, by decide⟩

/-- Claim C1 (amended): the Python→R encoder wraps a one-element homogeneous
vector of any scalar in `c(...)` around the scalar's own encoding, so the
texts differ; the collapse to the scalar literal is performed by the
R→Python encoder, where a length-1 unnamed vector of each atomic kind is
emitted via the scalar form `..py.repr.*.1` — and in R the scalar and the
length-1 vector are the same value, so `encode([x]) == encode(x)` holds
there. -/
theorem C1_length1_collapse :
    (∀ (v : PyVal), isScalarPy v = true →
      ∀ (fuel : Nat) (h : PyHeap) (pr : Processed) (st : Warnings),
        rRepr (fuel + 2) h (.pyseq [v]) pr st =
          Option.map (fun x => ("c(" ++ x.1 ++ ")", x.2))
            (rRepr (fuel + 1) h v pr st)) ∧
    (∀ n : Int, pyReprVec (.rint [n] none) = pyReprInt1 n) ∧
    (∀ f : PFloat, pyReprVec (.rdouble [f] none) = pyReprDouble1 f) ∧
    (∀ s : String, pyReprVec (.rchar [s] none) = pyReprChar1 s) ∧
    (∀ b : Bool, pyReprVec (.rlogical [b] none) = pyReprLogical1 b) := by
  refine ⟨?_, fun n => rfl, fun f => rfl, fun s => rfl, fun b => rfl⟩
  intro v hv fuel h pr st
  cases v with
  | pybool b => rfl
  | pyint n => rfl
  | pystr s => rfl
  | pyfloat f => cases f <;> rfl
  | pynone => simp [isScalarPy] at hv
  | pyseq xs => simp [isScalarPy] at hv
  | pyset xs => simp [isScalarPy] at hv
  | pydict ref => simp [isScalarPy] at hv
  | unsupported cls sr => simp [isScalarPy] at hv

/-- Claim C1, witness of the amended theorem at the scalar `5`. -/
theorem C1_witness :
    rRepr 2 [] (.pyseq [.pyint 5]) none [] =
      Option.map (fun x => ("c(" ++ x.1 ++ ")", x.2)) (rRepr 1 [] (.pyint 5) none []) :=
  C1_length1_collapse.1 (.pyint 5) rfl 0 [] none []

/-- Claim C2, counterexample: `numpy.isinf` is true for negative infinity as
well, so the encoder emits the positive sentinel `Inf` for `-inf` — the sign
is NOT preserved, contradicting "the negated Infinity sentinel (sign
preserved) when f is negative infinity". -/
theorem C2_counterexample :
    rRepr 1 [] (.pyfloat (.inf false)) none [] = some ("Inf", none, []) ∧
    ("Inf" : String) ≠ "-Inf" :=
  ⟨rfl, by decide⟩

/-- Claim C2 (amended): the encoder returns the `NaN` sentinel for NaN, the
`Inf` sentinel for BOTH positive and negative infinity (the sign is lost),
and the decimal literal of `f` otherwise; NaN and the infinities encode to
sentinels, never to an error, and the warning state is untouched. -/
theorem C2_float_encoding :
    ∀ (fuel : Nat) (h : PyHeap) (pr : Processed) (st : Warnings),
      rRepr (fuel + 1) h (.pyfloat .nan) pr st = some ("NaN", pr, st) ∧
      (∀ pos : Bool, rRepr (fuel + 1) h (.pyfloat (.inf pos)) pr st = some ("Inf", pr, st)) ∧
      (∀ r : String, rRepr (fuel + 1) h (.pyfloat (.finite r)) pr st = some (r, pr, st)) :=
  fun _ _ _ _ => ⟨rfl, fun _ => rfl, fun _ => rfl⟩

/-- Claim C4, counterexample: the `processed` set is one Python set object
mutated in place for the whole top-level encode, not a per-call-stack scope.
For `d = {'a': m, 'b': m}` with `m = {'k': 1}` occurring twice as non-nested
siblings, the second occurrence encodes to `NULL`, not to a full encoding. -/
theorem C4_counterexample :
    rRepr 3 [(0, [("a", .pydict 1), ("b", .pydict 1)]), (1, [("k", .pyint 1)])]
        (.pydict 0) none []
      = some ("list(a=list(k=1),b=NULL)", none, []) ∧
    ("list(a=list(k=1),b=NULL)" : String) ≠ "list(a=list(k=1),b=list(k=1))" :=
  ⟨rfl, by decide⟩

/-- Claim C4 (amended): null substitution is scoped to the whole top-level
encode history, not the call stack: a mapping instance whose id is already in
the shared `processed` set encodes to the null literal whether or not it is
still being encoded on the current call stack, so the same mapping instance
occurring twice as non-nested siblings is fully encoded only at its first
occurrence and nulled at the second. -/
theorem C4_guard_history_scoped :
    (∀ (fuel : Nat) (h : PyHeap) (ref : Nat) (s : List Nat) (st : Warnings),
      s.isEmpty = false → s.contains ref = true →
      rRepr (fuel + 1) h (.pydict ref) (some s) st = some ("NULL", some s, st)) ∧
    rRepr 3 [(0, [("a", .pydict 1), ("b", .pydict 1)]), (1, [("k", .pyint 1)])]
        (.pydict 0) none []
      = some ("list(a=list(k=1),b=NULL)", none, []) := by
  refine ⟨?_, rfl⟩
  intro fuel h ref s st h1 h2
  have hm : ref ∈ s := by simpa using h2
  simp [rRepr, h1, h2, hm]

/-- Claim C4, witness of the amended theorem: a dict whose id `0` is in the
non-empty `processed` set `{0}` encodes to `NULL` even under an empty heap
(its items are never touched). -/
theorem C4_witness :
    rRepr 1 [] (.pydict 0) (some [0]) [] = some ("NULL", some [0], []) :=
  C4_guard_history_scoped.1 0 [] 0 [0] [] rfl rfl

/-- Claim C5: encoding a mapping that contains a reference to itself under
key `self` terminates at any sufficient depth bound, with the nested
self-reference encoded as the null literal; no warning is recorded and no
error is raised. -/
theorem C5_self_reference_terminates :
    ∀ fuel : Nat,
      rRepr (fuel + 2) [(0, [("self", .pydict 0)])] (.pydict 0) none []
        = some ("list(self=NULL)", none, []) :=
  fun _ => rfl

/-- Claim C6: a value of an unsupported kind encodes to the null literal,
never aborting, and appends to the warning dictionary a message carrying the
value's truncated representation; because the warnings live in a dict keyed
by message, encoding the same unsupported value twice in one call leaves
exactly one warning entry, not two. -/
theorem C6_unsupported_null_warning :
    (∀ (fuel : Nat) (h : PyHeap) (cls sr : String) (pr : Processed) (st : Warnings),
      rRepr (fuel + 1) h (.unsupported cls sr) pr st =
        some ("NULL", pr,
          addWarning st ("Unsupported datatype " ++ sr ++ ". Variable is set to NULL"))) ∧
    rRepr 2 [] (.pyseq [.unsupported "M" "A", .unsupported "M" "A"]) none []
      = some ("c(NULL,NULL)", none, ["Unsupported datatype A. Variable is set to NULL"]) :=
  ⟨fun _ _ _ _ _ _ => rfl, rfl⟩

/-- Claim C9, counterexample: on the six-character string `"(1,2)"` the
mangler yields `"X_1_2_"`, not the claimed `"X_1__2_"` — the claimed output
arises only from the stringification of the Python tuple `(1, 2)`, which
contains a space: `str((1,2)) = "(1, 2)"`. -/
theorem C9_counterexample :
    make_name "(1,2)" = "X_1_2_" ∧ ("X_1_2_" : String) ≠ "X_1__2_" :=
  ⟨by decide, by decide⟩

/-- Claim C9 (amended): `make_name` is a total function following exactly the
claimed algorithm (stated independently as `mangleSpec` and proved equal),
with `make_name("11111") = "X11111"`, `make_name("_1111") = "X_1111"`, and —
for the stringified tuple, which carries a space — `make_name("(1, 2)") =
"X_1__2_"`, while the space-free `make_name("(1,2)") = "X_1_2_"`. -/
theorem C9_make_name_algorithm :
    (∀ s : String, make_name s = mangleSpec s) ∧
    make_name "11111" = "X11111" ∧ make_name "_1111" = "X_1111" ∧
    make_name "(1, 2)" = "X_1__2_" ∧ make_name "(1,2)" = "X_1_2_" := by
  refine ⟨?_, by decide, by decide, by decide, by decide⟩
  intro s
  unfold make_name mangleSpec pyIsAlpha
  split_ifs with h1 h2 h3 h4 h5 h6 h7 h8 <;>
    simp_all [List.all_eq_true, List.isEmpty_eq_true]

/-- One-step unfolding of `rRepr` at a sequence (helper for the proofs
below). -/
theorem rRepr_pyseq (fuel : Nat) (h : PyHeap) (xs : List PyVal) (pr : Processed)
    (st : Warnings) :
    rRepr (fuel + 1) h (.pyseq xs) pr st =
      if xs.isEmpty then some ("c()", pr, st)
      else match homogeneous_type xs with
        | none => none
        | some homog =>
          match encElems (rRepr fuel h) xs st with
          | none => none
          | some (ts, st') =>
            if homog then some ("c(" ++ String.intercalate "," ts ++ ")", pr, st')
            else some ("list(" ++ String.intercalate "," ts ++ ")", pr, st') := rfl

/-- A value of exact type `int` or `float` always encodes in one step,
leaving `processed` and the warnings untouched (helper). -/
theorem numScalar_rRepr (v : PyVal) (hv : isNumScalar v = true) (fuel : Nat) (h : PyHeap)
    (pr : Processed) (st : Warnings) :
    ∃ t, rRepr (fuel + 1) h v pr st = some (t, pr, st) := by
  cases v with
  | pyint n => exact ⟨toString n, rfl⟩
  | pyfloat f => cases f with
    | nan => exact ⟨"NaN", rfl⟩
    | inf pos => exact ⟨"Inf", rfl⟩
    | finite r => exact ⟨r, rfl⟩
  | pybool b => simp [isNumScalar] at hv
  | pystr s => simp [isNumScalar] at hv
  | pynone => simp [isNumScalar] at hv
  | pyseq xs => simp [isNumScalar] at hv
  | pyset xs => simp [isNumScalar] at hv
  | pydict ref => simp [isNumScalar] at hv
  | unsupported cls sr => simp [isNumScalar] at hv

/-- The element loop succeeds on a list of numeric scalars and leaves the
warning dictionary unchanged (helper). -/
theorem encElems_numScalars (fuel : Nat) (h : PyHeap) (xs : List PyVal)
    (hxs : ∀ x ∈ xs, isNumScalar x = true) (st : Warnings) :
    ∃ ts, encElems (rRepr (fuel + 1) h) xs st = some (ts, st) := by
  induction xs with
  | nil => exact ⟨[], rfl⟩
  | cons x rest ih =>
    obtain ⟨t, ht⟩ := numScalar_rRepr x (hxs x (by simp)) fuel h none st
    obtain ⟨ts, hts⟩ := ih (fun y hy => hxs y (by simp [hy]))
    exact ⟨t :: ts, by simp [encElems, ht, hts]⟩

/-- Claim C10: every non-empty sequence whose elements are all of exact type
`int` or `float` — mixtures included — is classified as homogeneous (the test
compares against the first element's type but unifies `int` with `float`),
and the sequence encodes to the homogeneous `c(...)` vector form built from
the elementwise encodings, never to the `list(...)` form. -/
theorem C10_numeric_homogeneous :
    ∀ (xs : List PyVal), xs ≠ [] → (∀ x ∈ xs, isNumScalar x = true) →
    ∀ (fuel : Nat) (h : PyHeap) (pr : Processed) (st : Warnings),
      homogeneous_type xs = some true ∧
      rRepr (fuel + 2) h (.pyseq xs) pr st =
        Option.map (fun p => ("c(" ++ String.intercalate "," p.1 ++ ")", pr, p.2))
          (encElems (rRepr (fuel + 1) h) xs st) ∧
      (encElems (rRepr (fuel + 1) h) xs st).isSome = true := by
  intro xs hne hxs fuel h pr st
  have hhom : homogeneous_type xs = some true := by
    match xs, hne with
    | x :: rest, _ =>
      have hx := hxs x (by simp)
      have hrest : rest.all isinstanceIntFloat = true := by
        rw [List.all_eq_true]
        intro y hy
        have := hxs y (by simp [hy])
        cases y <;> simp_all [isNumScalar, isinstanceIntFloat]
      cases x <;> simp_all [isNumScalar, homogeneous_type, pytype]
  obtain ⟨ts, hts⟩ := encElems_numScalars fuel h xs hxs st
  have hne' : xs.isEmpty = false := by
    cases xs with
    | nil => exact absurd rfl hne
    | cons a l => rfl
  refine ⟨hhom, ?_, by simp [hts]⟩
  rw [show fuel + 2 = (fuel + 1) + 1 from rfl, rRepr_pyseq, hne', hhom, hts]
  simp

/-- Claim C10, witness at the mixed numeric sequence `[1, 2.5]`. -/
theorem C10_witness :
    homogeneous_type [.pyint 1, .pyfloat (.finite "2.5")] = some true ∧
    rRepr 2 [] (.pyseq [.pyint 1, .pyfloat (.finite "2.5")]) none []
      = some ("c(1,2.5)", none, []) :=
  ⟨(C10_numeric_homogeneous [.pyint 1, .pyfloat (.finite "2.5")]
      (List.cons_ne_nil _ _) (by simp [isNumScalar]) 0 [] none []).1, rfl⟩

/-- One-step unfolding of the element loop at a cons cell (helper). -/
theorem encElems_cons (enc : EncFun) (x : PyVal) (rest : List PyVal) (st : Warnings) :
    encElems enc (x :: rest) st =
      match enc x none st with
      | none => none
      | some (t, _, st') =>
        match encElems enc rest st' with
        | none => none
        | some (ts, st'') => some (t :: ts, st'') := rfl

/-- A duplicate-free list of integers has no duplicate under Python equality
(helper for the index-uniqueness check). -/
theorem hasDup_map_pyint (l : List Nat) (hl : l.Nodup) :
    hasDup (l.map fun i => PyVal.pyint (Int.ofNat i)) = false := by
  induction l with
  | nil => rfl
  | cons a rest ih =>
    rw [List.map_cons]
    simp only [hasDup, Bool.or_eq_false_iff]
    refine ⟨?_, ih (List.nodup_cons.mp hl).2⟩
    rw [List.any_eq_false]
    intro y hy
    obtain ⟨i, hi, rfl⟩ := List.mem_map.mp hy
    have hne : a ≠ i := by
      intro hcon; subst hcon; exact (List.nodup_cons.mp hl).1 hi
    simp [pyEq, hne]

/-- The element loop on a list of Python ints produces their decimal texts
and leaves the warnings unchanged (helper). -/
theorem encElems_map_pyint (fuel : Nat) (h : PyHeap) (l : List Nat) (st : Warnings) :
    encElems (rRepr (fuel + 1) h) (l.map fun i => PyVal.pyint (Int.ofNat i)) st
      = some (l.map toString, st) := by
  induction l with
  | nil => rfl
  | cons a rest ih =>
    rw [List.map_cons, encElems_cons,
      show rRepr (fuel + 1) h (.pyint (Int.ofNat a)) none st
          = some (toString a, none, st) from rfl,
      List.map_cons]
    simp [ih]
    simp only [Int.ofNat_eq_coe] at ih
    rw [ih]

/-- A non-empty range of Python ints is homogeneous (helper). -/
theorem homog_map_pyint (n : Nat) (hn : 1 ≤ n) :
    homogeneous_type ((List.range n).map fun i => PyVal.pyint (Int.ofNat i)) = some true := by
  cases n with
  | zero => omega
  | succ m =>
    rw [List.range_succ_eq_map, List.map_cons]
    simp only [homogeneous_type, pytype]
    rw [if_pos (by rfl)]
    congr 1
    rw [List.all_eq_true]
    intro y hy
    simp only [List.map_map, List.mem_map] at hy
    obtain ⟨i, _, rfl⟩ := hy
    rfl

/-- Claim C3, counterexample: for a two-row DataFrame with the default
integer range index, the emitted snippet is
`..read.feather('tmp', index=c(0,1))` — it carries an inline index-label
argument and is not the direct read `..read.feather('tmp')`.
(`pandas.RangeIndex` is a subclass of `pandas.Index`, so the first branch of
the index handling always runs and `list(data.index)` is transferred.) -/
theorem C3_counterexample :
    (encodeFrame 3 (fun _ => true) "tmp" ⟨[("a", [.pyint 1, .pyint 2])], .rangeIdx 2⟩ []).1
      = some ("..read.feather('tmp', index=c(0,1))", []) ∧
    ("..read.feather('tmp', index=c(0,1))" : String) ≠ "..read.feather('tmp')" :=
  ⟨rfl, by decide⟩

/-- Claim C3 (amended): for every DataFrame with the default integer range
index over `n ≥ 1` rows whose side-channel write succeeds, the encoder does
NOT omit the index: the emitted snippet carries the inline index-label
argument `index=c(0,...,n-1)`, because a `RangeIndex` is an instance of
`pandas.Index` and is transferred like any other index. -/
theorem C3_range_index_inlined :
    ∀ (fuel : Nat) (writeOk : Cols → Bool) (path : String) (cols : Cols)
      (st : Warnings) (n : Nat),
      writeOk cols = true → 1 ≤ n →
      encodeFrame (fuel + 2) writeOk path ⟨cols, .rangeIdx n⟩ st =
        (some ("..read.feather(" ++ pyStrRepr path ++ ", index=" ++
            ("c(" ++ String.intercalate "," ((List.range n).map toString) ++ ")") ++ ")", st),
         [cols]) := by
  intro fuel writeOk path cols st n hw hn
  have hdup : hasDup ((List.range n).map fun i => PyVal.pyint (Int.ofNat i)) = false :=
    hasDup_map_pyint (List.range n) (List.nodup_range n)
  have hhom := homog_map_pyint n hn
  have helems := encElems_map_pyint fuel [] (List.range n) st
  have hne : ((List.range n).map fun i => PyVal.pyint (Int.ofNat i)).isEmpty = false := by
    cases n with
    | zero => omega
    | succ m => simp [List.range_succ]
  have hseq : rRepr (fuel + 2) []
      (.pyseq ((List.range n).map fun i => PyVal.pyint (Int.ofNat i))) none st
      = some ("c(" ++ String.intercalate "," ((List.range n).map toString) ++ ")", none, st) := by
    rw [show fuel + 2 = (fuel + 1) + 1 from rfl, rRepr_pyseq, hne, hhom, helems]
    rfl
  simp only [Int.ofNat_eq_coe] at hdup hseq
  simp [encodeFrame, dfIndexList, hdup, hw, renderRead, hseq]

/-- Claim C3, witness of the amended theorem at a concrete two-row frame. -/
theorem C3_witness :
    encodeFrame 3 (fun _ => true) "tmp" ⟨[("a", [.pyint 1, .pyint 2])], .rangeIdx 2⟩ [] =
      (some ("..read.feather(" ++ pyStrRepr "tmp" ++ ", index=" ++
          ("c(" ++ String.intercalate "," ((List.range 2).map toString) ++ ")") ++ ")", []),
       [[("a", [.pyint 1, .pyint 2])]]) :=
  C3_range_index_inlined 1 (fun _ => true) "tmp" [("a", [.pyint 1, .pyint 2])] [] 2
    rfl (by decide)

/-- Claim C7: when the first side-channel write of a DataFrame fails, the
encoder coerces every value of each non-homogeneous column to its text
representation and retries the write with the coerced columns exactly once —
the attempt log is `[original, coerced]`, never longer; if the retry
succeeds, the outcome is the same snippet a first-try success would have
produced; if the retry also fails, the failure propagates as a fatal `none`
for this encode call, with no null substitution. -/
theorem C7_write_retry :
    ∀ (fuel : Nat) (writeOk : Cols → Bool) (path : String) (df : DataFrame) (st : Warnings),
      (writeOk df.cols = true →
        encodeFrame fuel writeOk path df st
          = ((encodeFrame fuel (fun _ => true) path df st).1, [df.cols])) ∧
      (∀ cols', writeOk df.cols = false → coerceCols df.cols = some cols' →
        (encodeFrame fuel writeOk path df st).2 = [df.cols, cols'] ∧
        (writeOk cols' = true →
          (encodeFrame fuel writeOk path df st).1
            = (encodeFrame fuel (fun _ => true) path df st).1) ∧
        (writeOk cols' = false → (encodeFrame fuel writeOk path df st).1 = none)) := by
  intro fuel writeOk path df st
  constructor
  · intro hw
    simp [encodeFrame, hw]
  · intro cols' hw hc
    refine ⟨?_, ?_, ?_⟩
    · by_cases hw' : writeOk cols' = true
      · simp [encodeFrame, hw, hc, hw']
      · simp [encodeFrame, hw, hc, hw']
    · intro hw'
      simp [encodeFrame, hw, hc, hw']
    · intro hw'
      simp [encodeFrame, hw, hc, hw']

/-- Claim C7, witness: a frame with one mixed `int`/`str` column, under a
write that succeeds exactly on all-homogeneous columns (first attempt fails,
the text-coerced retry succeeds and matches the always-succeeding outcome),
and under a write that always fails (the retry failure propagates as
`none`). -/
theorem C7_witness :
    (encodeFrame 2 (fun c => c.all fun p => homogeneous_type p.2 == some true) "tmp"
        ⟨[("a", [.pyint 1, .pystr "x"])], .rangeIdx 2⟩ []).2
      = [[("a", [.pyint 1, .pystr "x"])], [("a", [.pystr "1", .pystr "x"])]] ∧
    (encodeFrame 2 (fun c => c.all fun p => homogeneous_type p.2 == some true) "tmp"
        ⟨[("a", [.pyint 1, .pystr "x"])], .rangeIdx 2⟩ []).1
      = (encodeFrame 2 (fun _ => true) "tmp"
          ⟨[("a", [.pyint 1, .pystr "x"])], .rangeIdx 2⟩ []).1 ∧
    (encodeFrame 2 (fun _ => false) "tmp"
        ⟨[("a", [.pyint 1, .pystr "x"])], .rangeIdx 2⟩ []).1 = none :=
  ⟨((C7_write_retry 2 (fun c => c.all fun p => homogeneous_type p.2 == some true) "tmp"
      ⟨[("a", [.pyint 1, .pystr "x"])], .rangeIdx 2⟩ []).2
      [("a", [.pystr "1", .pystr "x"])] rfl rfl).1,
   ((C7_write_retry 2 (fun c => c.all fun p => homogeneous_type p.2 == some true) "tmp"
      ⟨[("a", [.pyint 1, .pystr "x"])], .rangeIdx 2⟩ []).2
      [("a", [.pystr "1", .pystr "x"])] rfl rfl).2.1 rfl,
   ((C7_write_retry 2 (fun _ => false) "tmp"
      ⟨[("a", [.pyint 1, .pystr "x"])], .rangeIdx 2⟩ []).2
      [("a", [.pystr "1", .pystr "x"])] rfl rfl).2.2 rfl⟩

/-- Swapping positions 0 and 1 of a two-element list (helper). -/
theorem swapList_pair (x y : Nat) : swapList [x, y] 0 1 = [y, x] := by
  simp [swapList, List.mapIdx_cons]

/-- `getD` on a mapped range below its length (helper). -/
theorem getD_map_range (N p : Nat) (f : Nat → Int) (hp : p < N) :
    ((List.range N).map f).getD p 0 = f p := by
  rw [List.getD_eq_getElem _ _ (by simpa using hp), List.getElem_map, List.getElem_range]

/-- Claim C8, counterexample: for the 2×2×2 array with elements `0..7` in
C order, the R array the emitted snippet evaluates to has the original dims
`(2,2,2)` but NOT the original element layout: at index `[1,0,0]` it holds
`2` while the source array holds `4` — the axis order is not restored for
rank 3, because the emitted snippet performs no swap-back after the reshape. -/
theorem C8_counterexample :
    rArrayDims cubeA = [2, 2, 2] ∧
    rArrayGet cubeA [1, 0, 0] = 2 ∧
    cubeA.get [1, 0, 0] = 4 ∧
    ((2 : Int) ≠ 4) := by
  refine ⟨?_, ?_, ?_, by decide⟩
  · decide
  · decide
  · decide

/-- Claim C8 (amended): a rank-≥2 ndarray bypasses the columnar side-channel
and is emitted inline as the C-order flattening of the array with its last
two axes swapped, with dim the reverse of the swapped shape — and for rank-2
arrays evaluating the emitted snippet (R fills `array(data, dim)` in
column-major order) reconstructs an array with the original axis order and
element layout; for rank ≥ 3 the original layout is not restored. -/
theorem C8_rank2_roundtrip :
    ∀ (r c : Nat) (A : NDArray), A.shape = [r, c] →
    ∀ (i j : Nat), i < r → j < c →
      rArrayDims A = [r, c] ∧ rArrayGet A [i, j] = A.get [i, j] := by
  intro r c A hsh i j hi hj
  have hrpos : 0 < r := Nat.lt_of_le_of_lt (Nat.zero_le i) hi
  have hswsh : (swappedA A).shape = [c, r] := by
    simp [swappedA, NDArray.swapaxes, hsh, swapList_pair]
  have hswget : (swappedA A).get [j, i] = A.get [i, j] := by
    simp [swappedA, NDArray.swapaxes, hsh, swapList_pair]
  have hdims : rArrayDims A = [r, c] := by
    simp [rArrayDims, hswsh]
  refine ⟨hdims, ?_⟩
  have hcolPos : colPos [r, c] [i, j] = i + r * j := by
    simp [colPos]
  have hlt : i + r * j < prodL [c, r] := by
    have h1 : i + r * j < r + r * j := Nat.add_lt_add_right hi (r * j)
    have h2 : r + r * j = r * (j + 1) := by ring
    have h3 : r * (j + 1) ≤ r * c := Nat.mul_le_mul_left r hj
    have h4 : prodL [c, r] = c * (r * 1) := rfl
    rw [h4]
    calc i + r * j < r * (j + 1) := h2 ▸ h1
      _ ≤ r * c := h3
      _ = c * (r * 1) := by ring
  have hunfl : cUnflatten [c, r] (i + r * j) = [j, i] := by
    have e1 : prodL [r] = r * 1 := rfl
    have e2 : prodL ([] : List Nat) = 1 := rfl
    simp only [cUnflatten, e1, e2, Nat.mul_one, Nat.div_one]
    rw [Nat.add_mul_div_left i j hrpos, Nat.div_eq_of_lt hi,
      Nat.add_mul_mod_self_left, Nat.mod_eq_of_lt hi, Nat.zero_add]
  rw [rArrayGet, hdims, hcolPos, flattenC, hswsh,
    getD_map_range _ _ _ hlt, hunfl, hswget]

/-- Claim C8, witness of the amended theorem at the concrete 2×3 array and
index `[1, 2]`. -/
theorem C8_witness :
    rArrayDims rectA = [2, 3] ∧ rArrayGet rectA [1, 2] = rectA.get [1, 2] :=
  C8_rank2_roundtrip 2 3 rectA rfl 1 2 (by decide) (by decide)

end SosR
